import Mathlib

/-!
# Verification of the SBGN adapter (`sys_bio_kgs/adapters/sbgn_adapter.py`)

A shallow embedding of the SBGN adapter's XML-fallback code path.  The adapter
parses an SBGN XML document into a plain mapping (`SbgnMap` below), extracts
nodes from glyphs and edges from arcs, resolves arc endpoints that may denote
ports, synthesizes MD5-based edge identifiers, and exposes metadata and a
validation query.

Modelling conventions:
* Python strings are Lean `String`s; Python `None`-able strings are
  `Option String`; Python truthiness of an optional string (`if not s`) is
  `truthy` below (both `None` and `""` are falsy).
* Python dicts with a fixed key set become structures; attribute-or-key
  absence becomes `Option`.
* Numeric attribute values (`float(...)` coercions on bbox/port/point
  coordinates) are kept as their source attribute text: no claim under
  verification depends on numeric interpretation, only on which glyphs,
  arcs, identifiers and properties exist and in which order.
* `hashlib.md5(...).hexdigest()` is embedded as a full MD5 implementation
  over `Nat` (32-bit arithmetic written with explicit `% 4294967296`).
-/

namespace SbgnAdapter

/-- Python truthiness filter for an optional string: `None` and `""` are falsy,
any other string is kept. -/
def truthy (o : Option String) : Option String :=
  match o with
  | none => none
  | some s => if s = "" then none else some s

/-- `s.rsplit(".", 1)[0]` for a string containing a `'.'`: everything before
the last `'.'`. -/
def beforeLastDot (s : String) : String :=
  ⟨(((s.data.reverse).dropWhile (fun c => c ≠ '.')).drop 1).reverse⟩

/-! ## MD5 (`hashlib.md5`), over `Nat` with explicit 32-bit reductions -/

/-- Rotate a 32-bit word (`x < 2^32`) left by `n` bits. -/
def rotl32 (x n : Nat) : Nat :=
  ((x <<< n) % 4294967296) ||| (x >>> (32 - n))

/-- 32-bit addition. -/
def add32 (a b : Nat) : Nat := (a + b) % 4294967296

/-- 32-bit bitwise complement (for `x < 2^32`). -/
def not32 (x : Nat) : Nat := 4294967295 ^^^ x

/-- MD5 round function F. -/
def md5F (b c d : Nat) : Nat := (b &&& c) ||| (not32 b &&& d)

/-- MD5 round function G. -/
def md5G (b c d : Nat) : Nat := (d &&& b) ||| (not32 d &&& c)

/-- MD5 round function H. -/
def md5H (b c d : Nat) : Nat := b ^^^ c ^^^ d

/-- MD5 round function I. -/
def md5I (b c d : Nat) : Nat := c ^^^ (b ||| not32 d)

/-- The 64 MD5 sine-derived constants. -/
def md5K : List Nat :=
  [0xd76aa478, 0xe8c7b756, 0x242070db, 0xc1bdceee,
   0xf57c0faf, 0x4787c62a, 0xa8304613, 0xfd469501,
   0x698098d8, 0x8b44f7af, 0xffff5bb1, 0x895cd7be,
   0x6b901122, 0xfd987193, 0xa679438e, 0x49b40821,
   0xf61e2562, 0xc040b340, 0x265e5a51, 0xe9b6c7aa,
   0xd62f105d, 0x02441453, 0xd8a1e681, 0xe7d3fbc8,
   0x21e1cde6, 0xc33707d6, 0xf4d50d87, 0x455a14ed,
   0xa9e3e905, 0xfcefa3f8, 0x676f02d9, 0x8d2a4c8a,
   0xfffa3942, 0x8771f681, 0x6d9d6122, 0xfde5380c,
   0xa4beea44, 0x4bdecfa9, 0xf6bb4b60, 0xbebfbc70,
   0x289b7ec6, 0xeaa127fa, 0xd4ef3085, 0x04881d05,
   0xd9d4d039, 0xe6db99e5, 0x1fa27cf8, 0xc4ac5665,
   0xf4292244, 0x432aff97, 0xab9423a7, 0xfc93a039,
   0x655b59c3, 0x8f0ccc92, 0xffeff47d, 0x85845dd1,
   0x6fa87e4f, 0xfe2ce6e0, 0xa3014314, 0x4e0811a1,
   0xf7537e82, 0xbd3af235, 0x2ad7d2bb, 0xeb86d391]

/-- The 64 MD5 per-round left-rotation amounts. -/
def md5S : List Nat :=
  [7, 12, 17, 22, 7, 12, 17, 22, 7, 12, 17, 22, 7, 12, 17, 22,
   5, 9, 14, 20, 5, 9, 14, 20, 5, 9, 14, 20, 5, 9, 14, 20,
   4, 11, 16, 23, 4, 11, 16, 23, 4, 11, 16, 23, 4, 11, 16, 23,
   6, 10, 15, 21, 6, 10, 15, 21, 6, 10, 15, 21, 6, 10, 15, 21]

/-- One MD5 round: state `(a, b, c, d)`, message words `ws`, round index `i`. -/
def md5Step (ws : List Nat) (st : Nat × Nat × Nat × Nat) (i : Nat) :
    Nat × Nat × Nat × Nat :=
  let a := st.1
  let b := st.2.1
  let c := st.2.2.1
  let d := st.2.2.2
  let fg : Nat × Nat :=
    if i < 16 then (md5F b c d, i)
    else if i < 32 then (md5G b c d, (5 * i + 1) % 16)
    else if i < 48 then (md5H b c d, (3 * i + 5) % 16)
    else (md5I b c d, (7 * i) % 16)
  let f := (fg.1 + a + md5K.getD i 0 + ws.getD fg.2 0) % 4294967296
  (d, (b + rotl32 f (md5S.getD i 0)) % 4294967296, b, c)

/-- Group a byte list into little-endian 32-bit words. -/
def toWords : List Nat → List Nat
  | b0 :: b1 :: b2 :: b3 :: rest =>
      (b0 + 256 * b1 + 65536 * b2 + 16777216 * b3) :: toWords rest
  | _ => []

/-- MD5 padding: append `0x80`, zero bytes to 56 mod 64, then the 8-byte
little-endian bit length. -/
def md5Pad (msg : List Nat) : List Nat :=
  msg ++ [0x80] ++ List.replicate ((119 - (msg.length % 64)) % 64) 0 ++
    (List.range 8).map (fun i => ((msg.length * 8) >>> (8 * i)) % 256)

/-- Split a (padded) byte list into its 64-byte chunks. -/
def chunks64 (l : List Nat) : List (List Nat) :=
  (List.range (l.length / 64)).map (fun i => (l.drop (64 * i)).take 64)

/-- MD5 initial state. -/
def md5Init : Nat × Nat × Nat × Nat :=
  (0x67452301, 0xefcdab89, 0x98badcfe, 0x10325476)

/-- Process one 64-byte chunk: run the 64 rounds and add into the state. -/
def md5ProcessChunk (st : Nat × Nat × Nat × Nat) (chunk : List Nat) :
    Nat × Nat × Nat × Nat :=
  let ws := toWords chunk
  let r := (List.range 64).foldl (md5Step ws) st
  (add32 st.1 r.1, add32 st.2.1 r.2.1, add32 st.2.2.1 r.2.2.1,
   add32 st.2.2.2 r.2.2.2)

/-- The four bytes of a 32-bit word, little-endian. -/
def wordBytes (w : Nat) : List Nat :=
  [w % 256, (w >>> 8) % 256, (w >>> 16) % 256, (w >>> 24) % 256]

/-- The 16-byte MD5 digest of a byte list. -/
def md5Bytes (msg : List Nat) : List Nat :=
  let padded := md5Pad msg
  let st := (chunks64 padded).foldl md5ProcessChunk md5Init
  wordBytes st.1 ++ wordBytes st.2.1 ++ wordBytes st.2.2.1 ++
    wordBytes st.2.2.2

/-- Lower-case hexadecimal digit. -/
def hexDigit (n : Nat) : Char :=
  if n < 10 then Char.ofNat (48 + n) else Char.ofNat (87 + n)

/-- Two hex digits of a byte. -/
def byteHex (b : Nat) : List Char := [hexDigit (b / 16), hexDigit (b % 16)]

/-- `hashlib.md5(bytes).hexdigest()`. -/
def md5hexBytes (msg : List Nat) : String := ⟨(md5Bytes msg).flatMap byteHex⟩

/-- UTF-8 encoding of one code point (Python `str.encode()`). -/
def utf8Bytes (c : Nat) : List Nat :=
  if c < 0x80 then [c]
  else if c < 0x800 then
    [0xC0 ||| (c >>> 6), 0x80 ||| (c &&& 0x3F)]
  else if c < 0x10000 then
    [0xE0 ||| (c >>> 12), 0x80 ||| ((c >>> 6) &&& 0x3F), 0x80 ||| (c &&& 0x3F)]
  else
    [0xF0 ||| (c >>> 18), 0x80 ||| ((c >>> 12) &&& 0x3F),
     0x80 ||| ((c >>> 6) &&& 0x3F), 0x80 ||| (c &&& 0x3F)]

/-- `s.encode()`: UTF-8 bytes of a string. -/
def strBytes (s : String) : List Nat :=
  s.data.flatMap (fun c => utf8Bytes c.toNat)

/-- `hashlib.md5(s.encode()).hexdigest()[:12]`, the synthesized edge
identifier of `SBGNAdapter.get_edges`. -/
def md5hex12 (s : String) : String := ⟨(md5hexBytes (strBytes s)).data.take 12⟩

/-! ## XML document model (`xml.etree.ElementTree` view used by the code)

An XML element: tag, attributes, children.  The SBGN namespace prefix
resolution of ElementTree (`sbgn:glyph` ↦ `{http://sbgn.org/libsbgn/0.2}glyph`)
is flattened: tags are their local names. -/

inductive Xml where
  | elem : String → List (String × String) → List Xml → Xml
deriving Repr

/-- The element's tag. -/
def Xml.tag : Xml → String
  | .elem t _ _ => t

/-- The element's attribute list. -/
def Xml.attrs : Xml → List (String × String)
  | .elem _ a _ => a

/-- The element's children, in document order. -/
def Xml.children : Xml → List Xml
  | .elem _ _ c => c

/-- `elem.get(key)`: first attribute with the given name, if any. -/
def Xml.attr (e : Xml) (k : String) : Option String :=
  e.attrs.lookup k

/-- `elem.get(key, default)`. -/
def Xml.attrD (e : Xml) (k d : String) : String := (e.attr k).getD d

/-- First direct child with the given tag (`elem.find(tag)`). -/
def Xml.findChild (e : Xml) (t : String) : Option Xml :=
  e.children.find? (fun c => c.tag = t)

/-- All direct children with the given tag (`elem.findall(tag)`). -/
def Xml.childrenTagged (e : Xml) (t : String) : List Xml :=
  e.children.filter (fun c => c.tag = t)

mutual
/-- All proper descendants of an element in document order
(`elem.findall(".//...")` iterates these; the element itself is excluded). -/
def Xml.descendants : Xml → List Xml
  | .elem _ _ cs => Xml.descList cs

/-- Descendants helper: each listed element followed by its descendants. -/
def Xml.descList : List Xml → List Xml
  | [] => []
  | c :: cs => c :: (Xml.descendants c ++ Xml.descList cs)
end

/-! ## Parsed SBGN data model (the XML-fallback plain mapping)

`SBGNAdapter._parse_xml_directly` returns a plain dict
`{"glyphs": [...], "arcs": [...], "language": ...}`; the structures below
are that dict's shape.  Coordinate attribute values are kept as text
(see module comment). -/

/-- A port entry (`{"id": ..., "x": ..., "y": ...}`). -/
structure Port where
  id : Option String
  x : String
  y : String
deriving Repr, DecidableEq

/-- A nested glyph entry (`{"id": ..., "class": ..., "label": ...?}`). -/
structure NestedGlyph where
  id : Option String
  klass : String
  label : Option String
deriving Repr, DecidableEq

/-- A bbox entry (`{"x": ..., "y": ..., "w": ..., "h": ...}`). -/
structure BBox where
  x : String
  y : String
  w : String
  h : String
deriving Repr, DecidableEq

/-- A top-level glyph entry of the fallback dict.  Optional dict keys that
hold lists (`ports`, `nested_glyphs`) are plain lists here: the code only
ever reads them with `glyph.get(key, [])`, so a missing key and an empty
list are indistinguishable. -/
structure Glyph where
  id : Option String
  klass : String
  orientation : Option String
  label : Option String
  bbox : Option BBox
  ports : List Port
  nested_glyphs : List NestedGlyph
deriving Repr, DecidableEq

/-- A point entry (`{"x": ..., "y": ...}`). -/
structure Point where
  x : String
  y : String
deriving Repr, DecidableEq

/-- An arc entry of the fallback dict (`next_points` like `ports` above). -/
structure Arc where
  id : Option String
  klass : String
  source : Option String
  target : Option String
  start : Option Point
  stop : Option Point
  next_points : List Point
deriving Repr, DecidableEq

/-- The fallback dict
`{"glyphs": [...], "arcs": [...], "language": ...}`. -/
structure SbgnMap where
  glyphs : List Glyph
  arcs : List Arc
  language : String
deriving Repr, DecidableEq

/-! ## `SBGNAdapter._parse_xml_directly` -/

/-- Point from a `start`/`end`/`next` element (x, y defaulting to `0`). -/
def parsePoint (e : Xml) : Point :=
  ⟨e.attrD "x" "0", e.attrD "y" "0"⟩

/-- One nested glyph element: id, class (default `"unknown"`), label text. -/
def parseNestedGlyph (e : Xml) : NestedGlyph :=
  { id := e.attr "id"
    klass := e.attrD "class" "unknown"
    label := (e.findChild "label").map (fun l => l.attrD "text" "") }

/-- One top-level glyph element, per `_parse_xml_directly`'s glyph loop. -/
def parseGlyph (e : Xml) : Glyph :=
  { id := e.attr "id"
    klass := e.attrD "class" "unknown"
    orientation := e.attr "orientation"
    label := (e.findChild "label").map (fun l => l.attrD "text" "")
    bbox := (e.findChild "bbox").map (fun b =>
      ⟨b.attrD "x" "0", b.attrD "y" "0", b.attrD "w" "0", b.attrD "h" "0"⟩)
    ports := (e.childrenTagged "port").map (fun p =>
      ⟨p.attr "id", p.attrD "x" "0", p.attrD "y" "0"⟩)
    nested_glyphs := (e.childrenTagged "glyph").map parseNestedGlyph }

mutual
/-- The chained `next`-element walk of `_parse_xml_directly`: find the first
`next` child, record its point, then descend into that child and repeat. -/
def nextChain : Xml → List Point
  | .elem _ _ cs => nextChainList cs

/-- Helper: scan a child list for the first `next` element. -/
def nextChainList : List Xml → List Point
  | [] => []
  | c :: rest =>
      if c.tag = "next" then parsePoint c :: nextChain c
      else nextChainList rest
end

/-- One arc element, per `_parse_xml_directly`'s arc loop. -/
def parseArc (e : Xml) : Arc :=
  { id := e.attr "id"
    klass := e.attrD "class" "unknown"
    source := e.attr "source"
    target := e.attr "target"
    start := (e.findChild "start").map parsePoint
    stop := (e.findChild "end").map parsePoint
    next_points := nextChain e }

/-- The map element: first `map` descendant of the root, else the root
itself (`root.find(".//sbgn:map")` with `root` fallback). -/
def mapElemOf (root : Xml) : Xml :=
  ((root.descendants).find? (fun e => e.tag = "map")).getD root

/-- The map element's direct `glyph` children: exactly the elements the
fallback parser turns into top-level glyphs. -/
def directGlyphElems (root : Xml) : List Xml :=
  (mapElemOf root).childrenTagged "glyph"

/-- `SBGNAdapter._parse_xml_directly`: top-level glyphs from the map
element's direct `glyph` children, arcs from ALL `arc` descendants of the
root, and the map element's `language` attribute (default `""`). -/
def parseXmlDirectly (root : Xml) : SbgnMap :=
  { glyphs := (directGlyphElems root).map parseGlyph
    arcs := ((root.descendants).filter (fun e => e.tag = "arc")).map parseArc
    language :=
      match (root.descendants).find? (fun e => e.tag = "map") with
      | some m => m.attrD "language" ""
      | none => "" }

/-! ## Node/edge output records

`get_nodes` yields `(node_id, node_type, properties)`, `get_edges` yields
`(edge_id, source_id, target_id, edge_type, properties)`.  Property values
are strings or lists of strings (the `unit_of_information` list). -/

/-- A property value: a string, or a list of strings. -/
inductive Value where
  | str : String → Value
  | strList : List String → Value
deriving Repr, DecidableEq

/-- An emitted node record. -/
structure Node where
  id : String
  nodeType : String
  props : List (String × Value)
deriving Repr, DecidableEq

/-- An emitted edge record. -/
structure Edge where
  id : String
  source : String
  target : String
  edgeType : String
  props : List (String × Value)
deriving Repr, DecidableEq

/-! ## Class lookup tables -/

/-- `SBGNAdapter.GLYPH_CLASS_TO_NODE_TYPE`. -/
def GLYPH_CLASS_TO_NODE_TYPE : List (String × String) :=
  [("macromolecule", "macromolecule"),
   ("nucleic acid feature", "information macromolecule"),
   ("simple chemical", "simple chemical"),
   ("process", "process"),
   ("source and sink", "sink reaction"),
   ("compartment", "compartment"),
   ("phenotype", "phenotype"),
   ("perturbation", "perturbation")]

/-- `SBGNAdapter.ARC_CLASS_TO_EDGE_TYPE`. -/
def ARC_CLASS_TO_EDGE_TYPE : List (String × String) :=
  [("consumption", "consumption"),
   ("production", "production"),
   ("inhibition", "inhibition"),
   ("necessary stimulation", "necessary_stimulation"),
   ("catalysis", "catalysis"),
   ("modulation", "modifier"),
   ("stimulation", "stimulation"),
   ("equivalence arc", "equivalence")]

/-! ## `SBGNAdapter.get_nodes` (dict / XML-fallback branch) -/

/-- `GLYPH_CLASS_TO_NODE_TYPE.get(glyph_class, "biological_entity")`. -/
def glyphNodeType (klass : String) : String :=
  (GLYPH_CLASS_TO_NODE_TYPE.lookup klass).getD "biological_entity"

/-- The `unit_of_information` list: labels of nested glyphs of class
`unit of information` with a truthy label, in document order. -/
def unitInfo (ns : List NestedGlyph) : List String :=
  ns.filterMap (fun n =>
    if n.klass = "unit of information" then truthy n.label else none)

/-- The node property dict built by `get_nodes` for one glyph, in insertion
order. -/
def glyphProps (g : Glyph) (gid : String) : List (String × Value) :=
  [("sbgn_class", Value.str g.klass), ("sbgn_id", Value.str gid)] ++
  (match truthy g.label with
   | some l => [("name", Value.str l), ("label", Value.str l)]
   | none => []) ++
  (match g.bbox with
   | some b => [("x", Value.str b.x), ("y", Value.str b.y),
                ("width", Value.str b.w), ("height", Value.str b.h)]
   | none => []) ++
  (match truthy g.orientation with
   | some o => [("orientation", Value.str o)]
   | none => []) ++
  (match unitInfo g.nested_glyphs with
   | [] => []
   | ls => [("unit_of_information", Value.strList ls)])

/-- One iteration of the `get_nodes` glyph loop: glyphs with a falsy id are
skipped (`if not glyph_id: continue`), all others yield a node. -/
def glyphNode (g : Glyph) : Option Node :=
  match g.id with
  | none => none
  | some gid =>
      if gid = "" then none
      else some ⟨gid, glyphNodeType g.klass, glyphProps g gid⟩

/-- `SBGNAdapter.get_nodes` on the fallback representation, as the list of
yielded records. -/
def getNodes (m : SbgnMap) : List Node :=
  m.glyphs.filterMap glyphNode

/-! ## `SBGNAdapter._resolve_arc_endpoints` -/

/-- The glyph-list scan of `resolve_to_glyph` (the no-`'.'` branch): for
each glyph in order, return its id if it equals the identifier, else the
glyph's id (which may be `None`!) if one of its declared ports matches;
if no glyph matches, return the input identifier unchanged. -/
def scanGlyphs : List Glyph → String → Option String
  | [], pid => some pid
  | g :: gs, pid =>
      if g.id = some pid then g.id
      else if g.ports.any (fun p => p.id = some pid) then g.id
      else scanGlyphs gs pid

/-- `SBGNAdapter._resolve_arc_endpoints.resolve_to_glyph`: identifiers
containing `'.'` are treated as `<glyph-id>.<n>` port names and the prefix
before the last `'.'` is returned without any validation; otherwise the
top-level glyphs are scanned. -/
def resolveToGlyph (glyphs : List Glyph) (pid : String) : Option String :=
  if pid.data.contains '.' then some (beforeLastDot pid)
  else scanGlyphs glyphs pid

/-- `SBGNAdapter._resolve_arc_endpoints`: `(None, None)` when either raw
endpoint is falsy, else both endpoints resolved by `resolve_to_glyph`. -/
def resolveArcEndpoints (glyphs : List Glyph) (a : Arc) :
    Option String × Option String :=
  match truthy a.source, truthy a.target with
  | some s, some t => (resolveToGlyph glyphs s, resolveToGlyph glyphs t)
  | _, _ => (none, none)

/-! ## `SBGNAdapter.get_edges` (dict / XML-fallback branch) -/

/-- `ARC_CLASS_TO_EDGE_TYPE.get(arc_class, "interaction")`. -/
def arcEdgeType (klass : String) : String :=
  (ARC_CLASS_TO_EDGE_TYPE.lookup klass).getD "interaction"

/-- The edge property dict built by `get_edges` for one arc, in insertion
order.  `intermediate_points` is the pipe-joined `"x,y"` rendering of the
waypoints (coordinate text kept as in the source attributes). -/
def arcProps (a : Arc) : List (String × Value) :=
  [("sbgn_arc_class", Value.str a.klass)] ++
  (match truthy a.id with
   | some i => [("sbgn_arc_id", Value.str i)]
   | none => []) ++
  (match a.start with
   | some p => [("start_x", Value.str p.x), ("start_y", Value.str p.y)]
   | none => []) ++
  (match a.stop with
   | some p => [("end_x", Value.str p.x), ("end_y", Value.str p.y)]
   | none => []) ++
  (match a.next_points with
   | [] => []
   | ps => [("intermediate_points",
             Value.str (String.intercalate "|"
               (ps.map (fun p => p.x ++ "," ++ p.y))))])

/-- One iteration of the `get_edges` arc loop: the arc is skipped (with a
warning) when either resolved endpoint is falsy; otherwise an edge is
yielded whose id is the arc's truthy id or the 12-character MD5 prefix of
`"{source}_{target}_{arc_class}"` computed from the RESOLVED endpoints. -/
def arcEdge (glyphs : List Glyph) (a : Arc) : Option Edge :=
  let r := resolveArcEndpoints glyphs a
  match truthy r.1, truthy r.2 with
  | some s, some t =>
      let edgeId :=
        match truthy a.id with
        | some i => i
        | none => md5hex12 (s ++ "_" ++ t ++ "_" ++ a.klass)
      some ⟨edgeId, s, t, arcEdgeType a.klass, arcProps a⟩
  | _, _ => none

/-- `SBGNAdapter.get_edges` on the fallback representation, as the list of
yielded records. -/
def getEdges (m : SbgnMap) : List Edge :=
  m.arcs.filterMap (arcEdge m.glyphs)

/-! ## `SBGNAdapter.get_metadata` (fallback representation) -/

/-- `hasattr(sbgn_map, name)` for the fallback representation: the parsed
map is a plain Python dict, and `hasattr` on a dict tests object
attributes, never dict keys, so it is `False` for `"language"` and
`"maps"` alike. -/
def dictHasAttr (_m : SbgnMap) (_name : String) : Bool := false

/-- `SBGNAdapter.get_metadata` on the fallback representation: the five
fixed entries; the two `hasattr` probes that would add `sbgn_language`
never fire on a plain dict (see `dictHasAttr`), so the recorded
`language` value is never surfaced on this path. -/
def getMetadata (dataSource : String) (m : SbgnMap) :
    List (String × String) :=
  let md := [("name", "SBGNAdapter"), ("data_source", dataSource),
             ("data_type", "sbgn"), ("version", "0.1.0"),
             ("adapter_class", "SBGNAdapter")]
  let md := if dictHasAttr m "language" then
              md ++ [("sbgn_language", m.language)]
            else md
  let md := if dictHasAttr m "maps" then
              md ++ [("sbgn_language", m.language)]
            else md
  md

/-! ## Adapter instance state: lazy, memoized parse
(`SBGNAdapter._load_sbgn_map`)

The only mutable state of an adapter instance is `self.sbgn_map`
(`None` until first use).  `parseCount` instruments how many times
`_parse_xml_directly` has run. -/

/-- The mutable state of one adapter instance. -/
structure AdapterState where
  dataSource : String
  sbgnMap : Option SbgnMap
  parseCount : Nat
deriving Repr, DecidableEq

/-- `SBGNAdapter.__init__` (for an existing file): no map loaded yet. -/
def initAdapter (ds : String) : AdapterState := ⟨ds, none, 0⟩

/-- `SBGNAdapter._load_sbgn_map` on the fallback path: parse on first call
and memoize in `self.sbgn_map`; return the cached value afterwards.
`fs` gives the (fixed) XML content of each path. -/
def loadSbgnMap (fs : String → Xml) (st : AdapterState) :
    SbgnMap × AdapterState :=
  match st.sbgnMap with
  | some m => (m, st)
  | none =>
      let m := parseXmlDirectly (fs st.dataSource)
      (m, { st with sbgnMap := some m, parseCount := st.parseCount + 1 })

/-- The three public accessors that trigger the lazy load. -/
inductive AdapterCall where
  | nodes
  | edges
  | metadata
deriving Repr, DecidableEq

/-- The value returned by one accessor call. -/
inductive CallResult where
  | nodes : List Node → CallResult
  | edges : List Edge → CallResult
  | metadata : List (String × String) → CallResult
deriving Repr, DecidableEq

/-- One accessor call on an adapter instance: load (or reuse) the parsed
map, then extract. -/
def stepCall (fs : String → Xml) (c : AdapterCall) (st : AdapterState) :
    CallResult × AdapterState :=
  let (m, st') := loadSbgnMap fs st
  match c with
  | .nodes => (.nodes (getNodes m), st')
  | .edges => (.edges (getEdges m), st')
  | .metadata => (.metadata (getMetadata st'.dataSource m), st')

/-- Run a sequence of accessor calls, threading the instance state. -/
def runCalls (fs : String → Xml) : List AdapterCall → AdapterState →
    AdapterState
  | [], st => st
  | c :: cs, st => runCalls fs cs (stepCall fs c st).2

/-! ## `SBGNAdapter.validate_data_source` and `_import_momapy`

`validate_data_source` runs under a blanket `try/except` returning
`False` on any exception.  Its body does `Reader, _ = _import_momapy()`,
but `_import_momapy` returns the 3-tuple
`(_SBGNMLReader, _ReaderResult, _MOMAPY_AVAILABLE)`; unpacking three
values into two names raises `ValueError`, so the body can never get past
that line.  The embedding models Python values, the exceptional control
flow (`Except`), and the tuple unpack faithfully. -/

/-- The Python values reachable in `validate_data_source`'s body. -/
inductive PyVal where
  | pyNone
  | pyReader
  | pyReaderResult
  | pyBool : Bool → PyVal
deriving Repr, DecidableEq

/-- The exceptions reachable in `validate_data_source`'s body. -/
inductive PyErr where
  | valueError
  | attributeError
  | parseError
deriving Repr, DecidableEq

/-- A path on disk: a file (with its parse outcome: `none` = exists but is
not a parseable SBGN document) or a directory. -/
inductive FsEntry where
  | file : Option Xml → FsEntry
  | directory

/-- The filesystem seen by the adapter: what, if anything, each path holds. -/
def FileSystem := String → Option FsEntry

/-- `self.data_source.exists()`. -/
def fsExists (fs : FileSystem) (p : String) : Bool := (fs p).isSome

/-- `self.data_source.is_file()`. -/
def fsIsFile (fs : FileSystem) (p : String) : Bool :=
  match fs p with
  | some (.file _) => true
  | _ => false

/-- `_import_momapy()`: always the 3-tuple
`(_SBGNMLReader, _ReaderResult, _MOMAPY_AVAILABLE)` — the reader objects
when momapy imported, `(None, None, False)` otherwise. -/
def importMomapyTriple (momapyAvailable : Bool) : List PyVal :=
  if momapyAvailable then [.pyReader, .pyReaderResult, .pyBool true]
  else [.pyNone, .pyNone, .pyBool false]

/-- Python tuple unpacking `a, b = t`: succeeds only on exactly two values,
otherwise raises `ValueError`. -/
def pyUnpack2 (xs : List PyVal) : Except PyErr (PyVal × PyVal) :=
  match xs with
  | [a, b] => .ok (a, b)
  | _ => .error .valueError

/-- `Reader.read(self.data_source)`: on `None`, attribute access raises
`AttributeError`; on the momapy reader the call is external library code,
modelled as succeeding exactly when the file parses (this branch is
unreachable: the tuple unpack above it always raises first). -/
def readerRead (reader : PyVal) (fs : FileSystem) (p : String) :
    Except PyErr (Option Xml) :=
  match reader with
  | .pyReader =>
      match fs p with
      | some (.file (some x)) => .ok (some x)
      | _ => .error .parseError
  | _ => .error .attributeError

/-- The `try` body of `validate_data_source`. -/
def validateBody (momapyAvailable : Bool) (fs : FileSystem) (p : String) :
    Except PyErr Bool :=
  if !(fsExists fs p) || !(fsIsFile fs p) then .ok false
  else
    match pyUnpack2 (importMomapyTriple momapyAvailable) with
    | .error e => .error e
    | .ok (reader, _) =>
        match readerRead reader fs p with
        | .error e => .error e
        | .ok obj => .ok obj.isSome

/-- `SBGNAdapter.validate_data_source`: the `try` body with every exception
caught and turned into `False`. -/
def validateDataSource (momapyAvailable : Bool) (fs : FileSystem)
    (p : String) : Bool :=
  match validateBody momapyAvailable fs p with
  | .ok b => b
  | .error _ => false

/-! ## Spec-side definitions used to state the claims -/

/-- The per-identifier resolution algorithm exactly as the specification
words it: a `'.'` identifier yields the substring before the last `'.'`
with no validation; otherwise the top-level glyphs are scanned linearly,
a glyph-id match returns the identifier itself, a declared-port-id match
returns the owning glyph's identifier, and no match returns the input
unchanged.  Stated for comparison with `resolveToGlyph` (from the code). -/
def resolveSpecScan : List Glyph → String → Option String
  | [], pid => some pid
  | g :: gs, pid =>
      if g.id = some pid then some pid
      else if g.ports.any (fun p => p.id = some pid) then g.id
      else resolveSpecScan gs pid

/-- Outer layer of the spec-worded resolver: port-convention shortcut, else
the linear scan. -/
def resolveSpec (glyphs : List Glyph) (pid : String) : Option String :=
  if pid.data.contains '.' then some (beforeLastDot pid)
  else resolveSpecScan glyphs pid

/-- An endpoint identifier is well-referenced in a glyph list when the
resolver cannot fall into its unvalidated pass-through: a dotted
identifier's prefix before the last `'.'` is the non-empty id of some
top-level glyph, an undotted identifier matches some glyph id or declared
port id. -/
def endpointWellRef (glyphs : List Glyph) (s : String) : Bool :=
  if s.data.contains '.' then
    (beforeLastDot s != "") &&
      glyphs.any (fun g => g.id == some (beforeLastDot s))
  else
    glyphs.any (fun g =>
      g.id == some s || g.ports.any (fun p => p.id == some s))

/-- Both truthy raw endpoints of an arc are well-referenced. -/
def arcWellRef (glyphs : List Glyph) (a : Arc) : Bool :=
  (match truthy a.source with
   | some s => endpointWellRef glyphs s
   | none => true) &&
  (match truthy a.target with
   | some s => endpointWellRef glyphs s
   | none => true)

/-- The `unit_of_information` labels a glyph element's nested glyph
children contribute, in document order. -/
def uiLabelsOfElem (e : Xml) : List String :=
  unitInfo ((e.childrenTagged "glyph").map parseNestedGlyph)

/-- The adapter state right after the first parse of the data source. -/
def loadedState (fs : String → Xml) (ds : String) : AdapterState :=
  ⟨ds, some (parseXmlDirectly (fs ds)), 1⟩

/-! ## Concrete fixture documents -/

/-- A macromolecule glyph `g1`. -/
def glyphG1 : Glyph :=
  { id := some "g1", klass := "macromolecule", orientation := none,
    label := some "Protein A", bbox := none, ports := [],
    nested_glyphs := [] }

/-- A process glyph `g2` that declares a port `g2a` (an undotted port
name, resolvable only through the glyph scan). -/
def glyphG2 : Glyph :=
  { id := some "g2", klass := "process", orientation := none,
    label := none, bbox := none, ports := [⟨some "g2a", "0", "0"⟩],
    nested_glyphs := [] }

/-- A process glyph `p1` with conventionally named ports `p1.1`, `p1.2`. -/
def glyphP1 : Glyph :=
  { id := some "p1", klass := "process", orientation := some "horizontal",
    label := none, bbox := none,
    ports := [⟨some "p1.1", "0", "0"⟩, ⟨some "p1.2", "0", "0"⟩],
    nested_glyphs := [] }

/-- An arc whose source `X9` matches no glyph and no port. -/
def arcDangling : Arc :=
  { id := some "a1", klass := "consumption", source := some "X9",
    target := some "g1", start := none, stop := none, next_points := [] }

/-- A document with one glyph and one arc whose source is unresolvable. -/
def mapDangling : SbgnMap := ⟨[glyphG1], [arcDangling], ""⟩

/-- An arc with no `source` attribute (a falsy raw endpoint). -/
def arcNoSource : Arc :=
  { id := some "a2", klass := "production", source := none,
    target := some "g1", start := none, stop := none, next_points := [] }

/-- A well-resolvable arc (glyph-id to glyph-id). -/
def arcGood : Arc :=
  { id := some "a3", klass := "catalysis", source := some "g1",
    target := some "g1", start := none, stop := none, next_points := [] }

/-- A document whose first arc is skipped and whose second is emitted. -/
def mapSkip : SbgnMap := ⟨[glyphG1], [arcNoSource, arcGood], ""⟩

/-- The skip document without its skipped first arc. -/
def mapSkipTail : SbgnMap := ⟨[glyphG1], [arcGood], ""⟩

/-- An identifier-less consumption arc from `g1` to port `g2a`. -/
def arcHash : Arc :=
  { id := none, klass := "consumption", source := some "g1",
    target := some "g2a", start := none, stop := none, next_points := [] }

/-- A document whose single arc needs a synthesized identifier. -/
def mapHash : SbgnMap := ⟨[glyphG1, glyphG2], [arcHash], ""⟩

/-- An identifier-less production arc out of port `p1.1`. -/
def arcPort1 : Arc :=
  { id := none, klass := "production", source := some "p1.1",
    target := some "g1", start := none, stop := none, next_points := [] }

/-- An identifier-less production arc out of port `p1.2`: a different raw
source with the same resolved endpoints as `arcPort1`. -/
def arcPort2 : Arc :=
  { id := none, klass := "production", source := some "p1.2",
    target := some "g1", start := none, stop := none, next_points := [] }

/-- A document with two identifier-less arcs with equal resolved
endpoints and class but different raw sources. -/
def mapTwin : SbgnMap := ⟨[glyphP1, glyphG1], [arcPort1, arcPort2], ""⟩

/-- A glyph of a class absent from the glyph lookup table. -/
def glyphFoo : Glyph :=
  { id := some "gf", klass := "submap", orientation := none, label := none,
    bbox := none, ports := [], nested_glyphs := [] }

/-- An arc of a class absent from the arc lookup table. -/
def arcFoo : Arc :=
  { id := some "af", klass := "logic arc", source := some "s1",
    target := some "t1", start := none, stop := none, next_points := [] }

/-- A glyph of a class present in the glyph lookup table. -/
def glyphKnown : Glyph :=
  { id := some "gk", klass := "nucleic acid feature", orientation := none,
    label := none, bbox := none, ports := [], nested_glyphs := [] }

/-- An arc of a class present in the arc lookup table. -/
def arcKnown : Arc :=
  { id := some "ak", klass := "modulation", source := some "s1",
    target := some "t1", start := none, stop := none, next_points := [] }

/-- An XML document: an `sbgn` root, a `map` with a `language` attribute,
a nucleic acid feature glyph with nested glyphs (two units of information
and one state variable), a plain glyph, and a nested arc. -/
def docNaf : Xml :=
  .elem "sbgn" []
    [.elem "map" [("language", "process_description")]
      [.elem "glyph" [("id", "naf1"), ("class", "nucleic acid feature")]
        [.elem "label" [("text", "gene X")] [],
         .elem "glyph" [("id", "u1"), ("class", "unit of information")]
           [.elem "label" [("text", "ct:gene")] []],
         .elem "glyph" [("id", "sv1"), ("class", "state variable")]
           [.elem "label" [("text", "P")] []],
         .elem "glyph" [("id", "u2"), ("class", "unit of information")]
           [.elem "label" [("text", "mt:dna")] []]],
       .elem "glyph" [("id", "g2"), ("class", "process")] [],
       .elem "arc" [("id", "a1"), ("class", "production"),
                    ("source", "naf1"), ("target", "g2")] []]]

/-- The nucleic acid feature element of `docNaf`. -/
def elemNaf : Xml :=
  .elem "glyph" [("id", "naf1"), ("class", "nucleic acid feature")]
    [.elem "label" [("text", "gene X")] [],
     .elem "glyph" [("id", "u1"), ("class", "unit of information")]
       [.elem "label" [("text", "ct:gene")] []],
     .elem "glyph" [("id", "sv1"), ("class", "state variable")]
       [.elem "label" [("text", "P")] []],
     .elem "glyph" [("id", "u2"), ("class", "unit of information")]
       [.elem "label" [("text", "mt:dna")] []]]

/-- A filesystem with a single well-formed, readable, parseable SBGN file
at `doc.sbgn`. -/
def fsC2 : FileSystem :=
  fun p => if p = "doc.sbgn" then some (.file (some docNaf)) else none

/-- A fixed file content assignment for the caching claims. -/
def fsX : String → Xml := fun _ => docNaf

/-! ## Helper lemmas -/

/-- A truthy optional string is that string, and it is non-empty. -/
theorem truthy_some {o : Option String} {s : String}
    (h : truthy o = some s) : o = some s ∧ s ≠ "" := by
  cases o with
  | none => simp [truthy] at h
  | some v =>
    by_cases hv : v = ""
    · simp [truthy, hv] at h
    · simp [truthy, hv] at h
      exact ⟨by rw [h], h ▸ hv⟩

/-- Each byte renders as two hex characters. -/
theorem length_flatMap_byteHex (l : List Nat) :
    (l.flatMap byteHex).length = 2 * l.length := by
  induction l with
  | nil => rfl
  | cons b bs ih =>
    simp [byteHex] at ih ⊢
    omega

/-- The MD5 digest always has 16 bytes. -/
theorem md5Bytes_length (msg : List Nat) : (md5Bytes msg).length = 16 := by
  simp [md5Bytes, wordBytes]

/-- The truncated hex digest always has 12 characters. -/
theorem md5hex12_length (s : String) : (md5hex12 s).length = 12 := by
  show ((md5hexBytes (strBytes s)).data.take 12).length = 12
  have h : (md5hexBytes (strBytes s)).data.length = 32 := by
    show ((md5Bytes (strBytes s)).flatMap byteHex).length = 32
    rw [length_flatMap_byteHex, md5Bytes_length]
  rw [List.length_take, h]
  decide

/-- Looking a key up past pairs that do not carry it. -/
theorem lookup_append_right {l₁ l₂ : List (String × Value)} {k : String}
    (h : ∀ p ∈ l₁, p.1 ≠ k) : (l₁ ++ l₂).lookup k = l₂.lookup k := by
  induction l₁ with
  | nil => rfl
  | cons p ps ih =>
    have hp : p.1 ≠ k := h p (by simp)
    cases p with
    | mk k' v =>
      have hne : (k == k') = false :=
        beq_eq_false_iff_ne.mpr (fun he => hp he.symm)
      simpa [List.lookup, hne] using ih fun q hq => h q (by simp [hq])

/-- What the glyph scan of `resolve_to_glyph` can return: the id of some
scanned glyph, or — when no glyph id and no port id matches — the input
identifier unchanged. -/
theorem scanGlyphs_result {glyphs : List Glyph} {s r : String}
    (h : scanGlyphs glyphs s = some r) :
    (∃ g ∈ glyphs, g.id = some r) ∨
      (r = s ∧ ∀ g ∈ glyphs, ¬g.id = some s ∧ ∀ p ∈ g.ports,
        ¬p.id = some s) := by
  induction glyphs with
  | nil =>
    simp [scanGlyphs] at h
    exact Or.inr ⟨h.symm, by simp⟩
  | cons g gs ih =>
    by_cases h1 : g.id = some s
    · rw [scanGlyphs, if_pos h1] at h
      exact Or.inl ⟨g, by simp, h⟩
    · by_cases h2 : g.ports.any (fun p => p.id = some s) = true
      · rw [scanGlyphs, if_neg h1, if_pos h2] at h
        exact Or.inl ⟨g, by simp, h⟩
      · rw [scanGlyphs, if_neg h1, if_neg h2] at h
        rcases ih h with ⟨g', hg', hid⟩ | ⟨hr, hnone⟩
        · exact Or.inl ⟨g', by simp [hg'], hid⟩
        · refine Or.inr ⟨hr, ?_⟩
          intro g' hg'
          rcases List.mem_cons.mp hg' with rfl | hg'
          · simp only [List.any_eq_true, decide_eq_true_eq] at h2
            push_neg at h2
            exact ⟨h1, h2⟩
          · exact hnone g' hg'

/-- A glyph with a truthy id contributes its id to the emitted node ids. -/
theorem mem_nodeIds {m : SbgnMap} {x : String} (hx : x ≠ "")
    (h : ∃ g ∈ m.glyphs, g.id = some x) :
    x ∈ (getNodes m).map Node.id := by
  obtain ⟨g, hg, hid⟩ := h
  have hn : glyphNode g = some ⟨x, glyphNodeType g.klass, glyphProps g x⟩ :=
    by simp [glyphNode, hid, hx]
  exact List.mem_map.mpr ⟨_, List.mem_filterMap.mpr ⟨g, hg, hn⟩, rfl⟩

/-! ## Claims -/

/-- C2.  The claim says `validate_data_source` never raises, returns
`False` for a non-existent path, and returns `True` for every well-formed
minimal SBGN document that exists, is readable, and parses.  The first two
parts hold, but the third is a code bug: the body's
`Reader, _ = _import_momapy()` unpacks `_import_momapy`'s 3-tuple into two
names, which raises `ValueError`; the blanket `except` turns it into
`False`, so the query returns `False` for EVERY path — including the
existing, readable, parseable file `doc.sbgn` of `fsC2`, whatever the
momapy availability. -/
theorem C2_validate_data_source_always_false :
    (∀ (momapyAvailable : Bool) (fs : FileSystem) (p : String),
      validateDataSource momapyAvailable fs p = false) ∧
    fsExists fsC2 "doc.sbgn" = true ∧ fsIsFile fsC2 "doc.sbgn" = true ∧
    validateDataSource true fsC2 "doc.sbgn" = false ∧
    validateDataSource false fsC2 "doc.sbgn" = false := by
  refine ⟨?_, by decide, by decide, by decide, by decide⟩
  intro avail fs p
  have hbody : validateBody avail fs p = .ok false ∨
      validateBody avail fs p = .error .valueError := by
    unfold validateBody
    split
    · exact Or.inl rfl
    · cases avail <;> exact Or.inr rfl
  unfold validateDataSource
  rcases hbody with h | h <;> rw [h]

/-- C3.  For every non-empty endpoint identifier, `resolve_to_glyph` does
exactly what the claim describes: it equals the spec-worded resolver
`resolveSpec` (dotted identifiers yield the substring before the last
`'.'` with no validation; undotted ones are looked up by glyph id, then
by declared port id, scanning top-level glyphs linearly), and when
nothing matches it returns the input identifier unchanged. -/
theorem C3_resolver_matches_spec (glyphs : List Glyph) (s : String)
    (_hs : s ≠ "") :
    resolveToGlyph glyphs s = resolveSpec glyphs s ∧
    (s.data.contains '.' = true →
      resolveToGlyph glyphs s = some (beforeLastDot s)) ∧
    (s.data.contains '.' = false →
      (∀ g ∈ glyphs, ¬g.id = some s ∧ ∀ p ∈ g.ports, ¬p.id = some s) →
      resolveToGlyph glyphs s = some s) := by
  refine ⟨?_, ?_, ?_⟩
  · unfold resolveToGlyph resolveSpec
    split
    · rfl
    · induction glyphs with
      | nil => rfl
      | cons g gs ih =>
        by_cases h1 : g.id = some s
        · rw [scanGlyphs, if_pos h1, resolveSpecScan, if_pos h1, h1]
        · by_cases h2 : g.ports.any (fun p => p.id = some s) = true
          · rw [scanGlyphs, if_neg h1, if_pos h2,
              resolveSpecScan, if_neg h1, if_pos h2]
          · rw [scanGlyphs, if_neg h1, if_neg h2,
              resolveSpecScan, if_neg h1, if_neg h2]
            exact ih
  · intro hdot
    unfold resolveToGlyph
    rw [if_pos hdot]
  · intro hdot hnone
    unfold resolveToGlyph
    rw [if_neg (by simp only [hdot]; exact Bool.false_ne_true)]
    induction glyphs with
    | nil => rfl
    | cons g gs ih =>
      obtain ⟨hid, hports⟩ := hnone g (by simp)
      have h2 : ¬g.ports.any (fun p => p.id = some s) = true := by
        intro hcontra
        obtain ⟨p, hp, hps⟩ := List.any_eq_true.mp hcontra
        exact hports p hp (of_decide_eq_true hps)
      rw [scanGlyphs, if_neg hid, if_neg h2]
      exact ih fun g' hg' => hnone g' (by simp [hg'])

/-- C3 witness: the dotted identifier `p1.2` resolves to `p1` on the
fixture glyph list, and equals the spec-worded resolver there. -/
theorem C3_witness :
    "p1.2" ≠ "" ∧
    (resolveToGlyph [glyphP1, glyphG1] "p1.2" =
        resolveSpec [glyphP1, glyphG1] "p1.2" ∧
      ("p1.2".data.contains '.' = true →
        resolveToGlyph [glyphP1, glyphG1] "p1.2" =
          some (beforeLastDot "p1.2")) ∧
      ("p1.2".data.contains '.' = false →
        (∀ g ∈ [glyphP1, glyphG1], ¬g.id = some "p1.2" ∧
          ∀ p ∈ g.ports, ¬p.id = some "p1.2") →
        resolveToGlyph [glyphP1, glyphG1] "p1.2" = some "p1.2")) :=
  ⟨by decide, C3_resolver_matches_spec [glyphP1, glyphG1] "p1.2" (by decide)⟩

/-- C6.  The claim says the metadata mapping carries the five fixed keys
plus `sbgn_language` whenever the language is determinable — in
particular when the XML fallback recorded the map's `language`
attribute.  Code bug: on the fallback path the parsed map is a plain
dict, both `hasattr` probes in `get_metadata` are `False`, and
`sbgn_language` is NEVER added — even though parsing `docNaf` records
`language = "process_description"`, the returned mapping holds exactly
the five fixed keys and no `sbgn_language`. -/
theorem C6_metadata_missing_sbgn_language :
    (∀ (ds : String) (m : SbgnMap),
      (getMetadata ds m).map Prod.fst =
        ["name", "data_source", "data_type", "version", "adapter_class"]) ∧
    (parseXmlDirectly docNaf).language = "process_description" ∧
    (∀ ds : String,
      ((getMetadata ds (parseXmlDirectly docNaf)).lookup "sbgn_language") =
        none) := by
  refine ⟨?_, by decide, ?_⟩
  · intro ds m
    simp [getMetadata, dictHasAttr]
  · intro ds
    simp [getMetadata, dictHasAttr, List.lookup]

/-- C8.  A glyph whose class is not a key of the glyph table is emitted
with node type `biological_entity`, and a table-listed class with its
table entry; an arc whose class is not a key of the arc table is emitted
with edge type `interaction`, and a table-listed class with its table
entry. -/
theorem C8_fallback_types :
    (∀ (g : Glyph) (n : Node), glyphNode g = some n →
      (GLYPH_CLASS_TO_NODE_TYPE.lookup g.klass = none →
        n.nodeType = "biological_entity") ∧
      (∀ t, GLYPH_CLASS_TO_NODE_TYPE.lookup g.klass = some t →
        n.nodeType = t)) ∧
    (∀ (glyphs : List Glyph) (a : Arc) (e : Edge),
      arcEdge glyphs a = some e →
      (ARC_CLASS_TO_EDGE_TYPE.lookup a.klass = none →
        e.edgeType = "interaction") ∧
      (∀ t, ARC_CLASS_TO_EDGE_TYPE.lookup a.klass = some t →
        e.edgeType = t)) := by
  constructor
  · intro g n hn
    have ht : n.nodeType = glyphNodeType g.klass := by
      cases hid : g.id with
      | none => simp [glyphNode, hid] at hn
      | some gid =>
        by_cases hgid : gid = ""
        · simp [glyphNode, hid, hgid] at hn
        · simp [glyphNode, hid, hgid] at hn
          rw [← hn]
    constructor
    · intro hnone
      rw [ht]
      simp [glyphNodeType, hnone]
    · intro t hsome
      rw [ht]
      simp [glyphNodeType, hsome]
  · intro glyphs a e he
    have ht : e.edgeType = arcEdgeType a.klass := by
      simp only [arcEdge] at he
      cases hs : truthy (resolveArcEndpoints glyphs a).1 with
      | none => simp [hs] at he
      | some s =>
        cases htr : truthy (resolveArcEndpoints glyphs a).2 with
        | none => simp [hs, htr] at he
        | some t =>
          simp [hs, htr] at he
          rw [← he]
    constructor
    · intro hnone
      rw [ht]
      simp [arcEdgeType, hnone]
    · intro t hsome
      rw [ht]
      simp [arcEdgeType, hsome]

/-- C8 witness: the unlisted glyph class `submap` yields node type
`biological_entity`, the listed class `nucleic acid feature` yields
`information macromolecule`; the unlisted arc class `logic arc` yields
edge type `interaction`, the listed class `modulation` yields
`modifier`. -/
theorem C8_witness :
    (∃ n, glyphNode glyphFoo = some n ∧ n.nodeType = "biological_entity") ∧
    (∃ n, glyphNode glyphKnown = some n ∧
      n.nodeType = "information macromolecule") ∧
    (∃ e, arcEdge [] arcFoo = some e ∧ e.edgeType = "interaction") ∧
    (∃ e, arcEdge [] arcKnown = some e ∧ e.edgeType = "modifier") := by
  refine ⟨⟨_, rfl, ?_⟩, ⟨_, rfl, ?_⟩, ⟨_, rfl, ?_⟩, ⟨_, rfl, ?_⟩⟩
  · exact (C8_fallback_types.1 glyphFoo _ rfl).1 (by decide)
  · exact (C8_fallback_types.1 glyphKnown _ rfl).2
      "information macromolecule" (by decide)
  · exact (C8_fallback_types.2 [] arcFoo _ rfl).1 (by decide)
  · exact (C8_fallback_types.2 [] arcKnown _ rfl).2 "modifier" (by decide)

/-- C4.  An arc without a truthy identifier is emitted with the
deterministic 12-character identifier
`md5(resolved_source + "_" + resolved_target + "_" + arc_class)[:12]`,
and re-running edge extraction on the same adapter instance returns the
identical result (same inputs, same identifiers). -/
theorem C4_synthesized_edge_id :
    (∀ (glyphs : List Glyph) (a : Arc) (e : Edge),
      truthy a.id = none → arcEdge glyphs a = some e →
      e.id = md5hex12 (e.source ++ "_" ++ e.target ++ "_" ++ a.klass) ∧
      e.id.length = 12) ∧
    (∀ (fs : String → Xml) (ds : String),
      (stepCall fs .edges ((stepCall fs .edges (initAdapter ds)).2)).1 =
        (stepCall fs .edges (initAdapter ds)).1) := by
  constructor
  · intro glyphs a e hid he
    simp only [arcEdge] at he
    cases hs : truthy (resolveArcEndpoints glyphs a).1 with
    | none => simp [hs] at he
    | some s =>
      cases ht : truthy (resolveArcEndpoints glyphs a).2 with
      | none => simp [hs, ht] at he
      | some t =>
        simp [hs, ht, hid] at he
        rw [← he]
        exact ⟨rfl, md5hex12_length _⟩
  · intro fs ds
    rfl

/-- C4 witness: the identifier-less arc of `mapHash` resolves to
`g1`/`g2` and is emitted with the hash of `g1_g2_consumption`, which has
12 characters. -/
theorem C4_witness :
    truthy arcHash.id = none ∧
    (∃ e, arcEdge mapHash.glyphs arcHash = some e ∧
      e.id = md5hex12 ("g1" ++ "_" ++ "g2" ++ "_" ++ "consumption") ∧
      e.id.length = 12) := by
  refine ⟨by decide, ⟨_, rfl, ?_, ?_⟩⟩
  · exact (C4_synthesized_edge_id.1 mapHash.glyphs arcHash _
      (by decide) rfl).1
  · exact (C4_synthesized_edge_id.1 mapHash.glyphs arcHash _
      (by decide) rfl).2

/-- C10.  Two identifier-less arcs of one document with equal resolved
source, resolved target, and class receive the identical synthesized
edge identifier — the hash is computed over the RESOLVED endpoints, not
the raw source/target strings — and both edges are emitted with no
deduplication. -/
theorem C10_hash_over_resolved_endpoints
    (glyphs : List Glyph) (lang : String) (a1 a2 : Arc) (e1 e2 : Edge)
    (h1 : truthy a1.id = none) (h2 : truthy a2.id = none)
    (hk : a1.klass = a2.klass)
    (hr : resolveArcEndpoints glyphs a1 = resolveArcEndpoints glyphs a2)
    (he1 : arcEdge glyphs a1 = some e1)
    (he2 : arcEdge glyphs a2 = some e2) :
    e1.id = e2.id ∧ getEdges ⟨glyphs, [a1, a2], lang⟩ = [e1, e2] := by
  constructor
  · have he1' := he1
    have he2' := he2
    simp only [arcEdge] at he1' he2'
    rw [← hr] at he2'
    cases hs : truthy (resolveArcEndpoints glyphs a1).1 with
    | none => simp [hs] at he1'
    | some s =>
      cases ht : truthy (resolveArcEndpoints glyphs a1).2 with
      | none => simp [hs, ht] at he1'
      | some t =>
        simp [hs, ht, h1] at he1'
        simp [hs, ht, h2] at he2'
        rw [← he1', ← he2', hk]
  · simp [getEdges, he1, he2]

/-- C10 witness: the two identifier-less arcs of `mapTwin` have different
raw sources (`p1.1` vs `p1.2`) but equal resolved endpoints and class;
both are emitted, with the same synthesized identifier. -/
theorem C10_witness :
    arcPort1.source ≠ arcPort2.source ∧
    (∃ e1 e2, arcEdge mapTwin.glyphs arcPort1 = some e1 ∧
      arcEdge mapTwin.glyphs arcPort2 = some e2 ∧
      e1.id = e2.id ∧ getEdges mapTwin = [e1, e2]) := by
  refine ⟨by decide, ⟨_, _, rfl, rfl, ?_⟩⟩
  exact C10_hash_over_resolved_endpoints mapTwin.glyphs "" arcPort1 arcPort2
    _ _ (by decide) (by decide) (by decide) (by decide) rfl rfl

/-- C5, corrected.  The claim says an arc with an endpoint matching no
glyph or port is skipped; in fact such an endpoint passes through
resolution unchanged and the arc IS emitted
(see the counterexample).  What holds: an arc is skipped exactly when a
resolved endpoint is falsy (raw endpoint absent/empty, or resolution
returned `None`/`""`); a skipped arc is dropped entirely — never emitted
with null endpoints (every emitted edge has non-empty endpoints) — and
extraction continues with the remaining arcs. -/
theorem C5_skip_characterization :
    (∀ (glyphs : List Glyph) (a : Arc),
      arcEdge glyphs a = none ↔
        (truthy (resolveArcEndpoints glyphs a).1 = none ∨
         truthy (resolveArcEndpoints glyphs a).2 = none)) ∧
    (∀ (glyphs : List Glyph) (lang : String) (a : Arc) (rest : List Arc),
      arcEdge glyphs a = none →
      getEdges ⟨glyphs, a :: rest, lang⟩ = getEdges ⟨glyphs, rest, lang⟩) ∧
    (∀ m : SbgnMap, ∀ e ∈ getEdges m, e.source ≠ "" ∧ e.target ≠ "") := by
  refine ⟨?_, ?_, ?_⟩
  · intro glyphs a
    simp only [arcEdge]
    cases hs : truthy (resolveArcEndpoints glyphs a).1 with
    | none => simp
    | some s =>
      cases ht : truthy (resolveArcEndpoints glyphs a).2 with
      | none => simp
      | some t => simp
  · intro glyphs lang a rest hnone
    simp [getEdges, hnone]
  · intro m e he
    obtain ⟨a, ha, hae⟩ := List.mem_filterMap.mp he
    simp only [arcEdge] at hae
    cases hs : truthy (resolveArcEndpoints m.glyphs a).1 with
    | none => simp [hs] at hae
    | some s =>
      cases ht : truthy (resolveArcEndpoints m.glyphs a).2 with
      | none => simp [hs, ht] at hae
      | some t =>
        simp [hs, ht] at hae
        rw [← hae]
        exact ⟨(truthy_some hs).2, (truthy_some ht).2⟩

/-- C5 counterexample: in `mapDangling` the arc's source `X9` matches no
glyph id and no port id, yet the arc is NOT skipped — it is emitted,
with `X9` passed through as its source. -/
theorem C5_unmatched_arc_emitted :
    (mapDangling.glyphs.any (fun g =>
      g.id = some "X9" || g.ports.any (fun p => p.id = some "X9"))) =
        false ∧
    (getEdges mapDangling).map Edge.source = ["X9"] ∧
    (getEdges mapDangling).length = 1 := by decide

/-- C5 witness: the arc of `mapSkip` with a missing source attribute is
skipped entirely, and extraction continues: the remaining arc is still
emitted. -/
theorem C5_witness :
    arcEdge mapSkip.glyphs arcNoSource = none ∧
    getEdges mapSkip = getEdges mapSkipTail ∧
    (getEdges mapSkipTail).length = 1 := by
  refine ⟨by decide, ?_, by decide⟩
  exact C5_skip_characterization.2.1 mapSkip.glyphs "" arcNoSource [arcGood]
    (by decide)

/-- A truthily-resolved endpoint of a well-referenced identifier is the
id of an emitted node. -/
theorem resolved_mem_nodeIds {m : SbgnMap} {s₀ s : String}
    (href : endpointWellRef m.glyphs s₀ = true)
    (hres : resolveToGlyph m.glyphs s₀ = some s) (hs : s ≠ "") :
    s ∈ (getNodes m).map Node.id := by
  unfold resolveToGlyph at hres
  unfold endpointWellRef at href
  by_cases hdot : s₀.data.contains '.' = true
  · rw [if_pos hdot] at hres href
    obtain rfl : beforeLastDot s₀ = s := Option.some.inj hres
    simp only [Bool.and_eq_true, List.any_eq_true, beq_iff_eq] at href
    obtain ⟨-, g, hg, hid⟩ := href
    exact mem_nodeIds hs ⟨g, hg, hid⟩
  · rw [if_neg hdot] at hres href
    rcases scanGlyphs_result hres with ⟨g, hg, hid⟩ | ⟨rfl, hnomatch⟩
    · exact mem_nodeIds hs ⟨g, hg, hid⟩
    · simp only [List.any_eq_true, Bool.or_eq_true, beq_iff_eq] at href
      obtain ⟨g, hg, hmatch⟩ := href
      rcases hmatch with hid | hport
      · exact absurd hid (hnomatch g hg).1
      · obtain ⟨p, hp, hpid⟩ := hport
        exact absurd hpid ((hnomatch g hg).2 p hp)

/-- C1, corrected.  The claim's invariant — every emitted edge endpoint
equals the id of some emitted node — fails on the code (see the
counterexample): the resolver passes identifiers matching no glyph or
port through unchanged, and no re-validation happens at emission.  The
invariant DOES hold for every document whose truthy arc endpoints are all
well-referenced (`arcWellRef`): dotted identifiers' prefix before the
last `'.'` is the non-empty id of some top-level glyph, undotted ones
match some glyph id or declared port id. -/
theorem C1_edges_reference_emitted_nodes (m : SbgnMap)
    (h : ∀ a ∈ m.arcs, arcWellRef m.glyphs a = true) :
    ∀ e ∈ getEdges m,
      e.source ∈ (getNodes m).map Node.id ∧
      e.target ∈ (getNodes m).map Node.id := by
  intro e he
  obtain ⟨a, ha, hae⟩ := List.mem_filterMap.mp he
  have hwr := h a ha
  simp only [arcEdge] at hae
  cases hs : truthy (resolveArcEndpoints m.glyphs a).1 with
  | none => simp [hs] at hae
  | some s =>
    cases ht : truthy (resolveArcEndpoints m.glyphs a).2 with
    | none => simp [hs, ht] at hae
    | some t =>
      simp [hs, ht] at hae
      cases hsrc : truthy a.source with
      | none =>
        rw [show (resolveArcEndpoints m.glyphs a).1 = none by
          simp [resolveArcEndpoints, hsrc]] at hs
        simp [truthy] at hs
      | some s₀ =>
        cases htgt : truthy a.target with
        | none =>
          rw [show (resolveArcEndpoints m.glyphs a).2 = none by
            simp [resolveArcEndpoints, hsrc, htgt]] at ht
          simp [truthy] at ht
        | some t₀ =>
          have h1 : (resolveArcEndpoints m.glyphs a).1 =
              resolveToGlyph m.glyphs s₀ := by
            simp [resolveArcEndpoints, hsrc, htgt]
          have h2 : (resolveArcEndpoints m.glyphs a).2 =
              resolveToGlyph m.glyphs t₀ := by
            simp [resolveArcEndpoints, hsrc, htgt]
          rw [h1] at hs
          rw [h2] at ht
          have hwr' : endpointWellRef m.glyphs s₀ = true ∧
              endpointWellRef m.glyphs t₀ = true := by
            simpa [arcWellRef, hsrc, htgt] using hwr
          rw [← hae]
          exact ⟨resolved_mem_nodeIds hwr'.1 ((truthy_some hs).1)
              ((truthy_some hs).2),
            resolved_mem_nodeIds hwr'.2 ((truthy_some ht).1)
              ((truthy_some ht).2)⟩

/-- C1 counterexample: `mapDangling` emits an edge whose source `X9` is
not the id of any emitted node — the claimed invariant fails on the
code. -/
theorem C1_dangling_edge :
    (getEdges mapDangling).map Edge.source = ["X9"] ∧
    "X9" ∉ (getNodes mapDangling).map Node.id := by decide

/-- C1 witness: all endpoints of `mapHash` are well-referenced, and every
emitted edge endpoint is the id of an emitted node. -/
theorem C1_witness :
    (∀ a ∈ mapHash.arcs, arcWellRef mapHash.glyphs a = true) ∧
    (∀ e ∈ getEdges mapHash,
      e.source ∈ (getNodes mapHash).map Node.id ∧
      e.target ∈ (getNodes mapHash).map Node.id) :=
  ⟨by decide, C1_edges_reference_emitted_nodes mapHash (by decide)⟩

/-- The `unit_of_information` entry of a glyph's property dict is exactly
the (non-empty) list of its nested unit-of-information labels. -/
theorem glyphProps_lookup_ui (g : Glyph) (gid : String) :
    (glyphProps g gid).lookup "unit_of_information" =
      match unitInfo g.nested_glyphs with
      | [] => none
      | ls => some (Value.strList ls) := by
  unfold glyphProps
  cases htl : truthy g.label <;> cases hbb : g.bbox <;>
    cases hor : truthy g.orientation <;>
      cases hui : unitInfo g.nested_glyphs <;>
        simp [List.lookup]

/-- An emitted node's property dict is the one `get_nodes` builds for its
glyph. -/
theorem glyphNode_props {g : Glyph} {n : Node} (hn : glyphNode g = some n) :
    n.props = glyphProps g n.id := by
  cases hid : g.id with
  | none => simp [glyphNode, hid] at hn
  | some gid =>
    by_cases hgid : gid = ""
    · simp [glyphNode, hid, hgid] at hn
    · simp [glyphNode, hid, hgid] at hn
      rw [← hn]

/-- C7.  The fallback parser turns only the map element's direct `glyph`
children into top-level glyphs, so nodes arise only from those elements;
nested glyph elements are captured as `nested_glyphs` metadata on the
parent and never become standalone nodes; and the parent node's
`unit_of_information` property is the document-ordered list of its nested
`unit of information` glyph labels (present only when non-empty). -/
theorem C7_toplevel_glyphs_and_unit_info (root : Xml) :
    (parseXmlDirectly root).glyphs =
      (directGlyphElems root).map parseGlyph ∧
    getNodes (parseXmlDirectly root) =
      (directGlyphElems root).filterMap (fun e => glyphNode (parseGlyph e)) ∧
    (∀ e : Xml, (parseGlyph e).nested_glyphs =
      (e.childrenTagged "glyph").map parseNestedGlyph) ∧
    (∀ (e : Xml) (n : Node), glyphNode (parseGlyph e) = some n →
      n.props.lookup "unit_of_information" =
        match uiLabelsOfElem e with
        | [] => none
        | ls => some (Value.strList ls)) := by
  refine ⟨rfl, ?_, fun e => rfl, ?_⟩
  · show ((directGlyphElems root).map parseGlyph).filterMap glyphNode = _
    rw [List.filterMap_map]
    rfl
  · intro e n hn
    rw [glyphNode_props hn, glyphProps_lookup_ui]
    rfl

/-- C7 witness: in `docNaf`, the nucleic acid feature's node carries
`unit_of_information = ["ct:gene", "mt:dna"]` in document order, and the
emitted node ids are exactly those of the map's direct glyph children —
the nested glyphs `u1`, `sv1`, `u2` yield no nodes. -/
theorem C7_witness :
    (∃ n, glyphNode (parseGlyph elemNaf) = some n ∧
      n.props.lookup "unit_of_information" =
        some (Value.strList ["ct:gene", "mt:dna"])) ∧
    (getNodes (parseXmlDirectly docNaf)).map Node.id = ["naf1", "g2"] := by
  refine ⟨⟨_, rfl, ?_⟩, by decide⟩
  exact (C7_toplevel_glyphs_and_unit_info docNaf).2.2.2 elemNaf _ rfl

/-- After any accessor call, a fresh adapter is in the loaded state. -/
theorem stepCall_init_snd (fs : String → Xml) (ds : String)
    (c : AdapterCall) :
    (stepCall fs c (initAdapter ds)).2 = loadedState fs ds := by
  cases c <;> rfl

/-- Accessor calls leave a loaded adapter's state unchanged. -/
theorem stepCall_loaded_snd (fs : String → Xml) (ds : String)
    (c : AdapterCall) :
    (stepCall fs c (loadedState fs ds)).2 = loadedState fs ds := by
  cases c <;> rfl

/-- A loaded adapter answers every call as a fresh one does. -/
theorem stepCall_loaded_fst (fs : String → Xml) (ds : String)
    (c : AdapterCall) :
    (stepCall fs c (loadedState fs ds)).1 =
      (stepCall fs c (initAdapter ds)).1 := by
  cases c <;> rfl

/-- Call sequences keep a loaded adapter in its loaded state. -/
theorem runCalls_loaded (fs : String → Xml) (ds : String)
    (cs : List AdapterCall) :
    runCalls fs cs (loadedState fs ds) = loadedState fs ds := by
  induction cs with
  | nil => rfl
  | cons c cs ih =>
    show runCalls fs cs (stepCall fs c (loadedState fs ds)).2 = _
    rw [stepCall_loaded_snd]
    exact ih

/-- C9.  On one adapter instance the document is parsed lazily and at
most once: after any sequence of `get_nodes`/`get_edges`/`get_metadata`
calls the parse ran zero times (no calls yet) or exactly once, the cache
field holds nothing or exactly the parse of the data source (written
once, never overwritten or mutated), and any further call returns exactly
what it would return on first access — the cached parse is reused. -/
theorem C9_parse_once_cached (fs : String → Xml) (ds : String)
    (calls : List AdapterCall) :
    ((runCalls fs calls (initAdapter ds)).parseCount =
      if calls.isEmpty then 0 else 1) ∧
    ((runCalls fs calls (initAdapter ds)).sbgnMap =
      if calls.isEmpty then none else some (parseXmlDirectly (fs ds))) ∧
    (∀ c, (stepCall fs c (runCalls fs calls (initAdapter ds))).1 =
      (stepCall fs c (initAdapter ds)).1) := by
  cases calls with
  | nil => exact ⟨rfl, rfl, fun c => rfl⟩
  | cons c cs =>
    have hrun : runCalls fs (c :: cs) (initAdapter ds) =
        loadedState fs ds := by
      show runCalls fs cs (stepCall fs c (initAdapter ds)).2 = _
      rw [stepCall_init_snd]
      exact runCalls_loaded fs ds cs
    rw [hrun]
    exact ⟨rfl, rfl, fun c' => stepCall_loaded_fst fs ds c'⟩

end SbgnAdapter
